import Mathlib

/-
Verification development for the psico PyMOL extension modules
(contactmap.py, electrostatics.py, querying.py, xtal.py).

Python floats are modelled as exact rationals (ℚ) except where real
transcendental functions (cos, sin, sqrt, arccos) are required, where ℝ is
used.  Python exceptions (CmdException, ValueError, ZeroDivisionError) are
modelled with Option/Except: a `none`/`.error` result is a raised exception.
Host state touched by the commands (the `stored` scratch object, global
rendering settings, loaded objects) is modelled by explicit state records.
-/

namespace Psico

/-! ## contactmap.py -/

/-- The literal `1e-12` from `contactmap.comp`, as an exact rational. -/
def eps : ℚ := 1 / 1000000000000

/-- Source: `def comp(thre,val): return thre - 1e-12 < val` (contactmap.py:12). -/
def comp (thre val : ℚ) : Bool := decide (thre - eps < val)

/-- One line of the map_align result file, after Python field extraction:
`a0` is `int(sec[1])`, `b0` is `int(sec[2])`, `p` is `float(sec[4])`
(contactmap.py:50-54; whitespace tokenizing and numeral parsing of the raw
text line are abstracted into the already-parsed fields). -/
structure MapLine where
  a0 : ℤ
  b0 : ℤ
  p  : ℚ
deriving DecidableEq

/-- The per-line decision of `contactmap` (contactmap.py:56-59): a distance
object is created for a line unless one of the three `continue` guards
fires: `not comp(pcut, probability)`, `a * b == 0`, or
`not a in resnlist or not b in resnlist`. -/
def displayLine (resnums : List ℤ) (pcut : ℚ) (offset : ℤ) (l : MapLine) : Bool :=
  let a := l.a0 + offset
  let b := l.b0 + offset
  comp pcut l.p && !(decide (a * b = 0)) && (decide (a ∈ resnums) && decide (b ∈ resnums))

/-- Module-level and host-global state touched by `contactmap`:
the `stored.resdict` global dictionary, the global `dash_color`,
`dash_radius`, `dash_gap` settings (set with no object argument,
contactmap.py:70-72), and the set of distance objects created. -/
structure PyMolState where
  resdict    : List (ℤ × String)
  dashColor  : String
  dashRadius : String
  dashGap    : String
  distObjs   : List String
deriving DecidableEq

/-- Name of the distance object created for a contact:
`'{0}_{1}_{2}'.format(a, b, model)` (contactmap.py:68). -/
def distName (a b : ℤ) (model : String) : String :=
  toString a ++ "_" ++ toString b ++ "_" ++ model

/-- State effect of `contactmap` (contactmap.py:38-73).  `residues` is the
model's residue dictionary as produced by `cmd.iterate(model,
"stored.resdict[int(resi)] = resn")`; `alignLines` are the parsed lines of
the alignment file.  An empty selection raises CmdException (`none`). -/
def contactmap (selection _chain : String) (residues : List (ℤ × String))
    (alignLines : List MapLine) (pcut : ℚ) (offset : ℤ)
    (st : PyMolState) : Option PyMolState :=
  if selection = "" then none
  else
    let resnums := residues.map Prod.fst
    let newObjs := (alignLines.filter (displayLine resnums pcut offset)).map
      (fun l => distName (l.a0 + offset) (l.b0 + offset) selection)
    some { resdict := residues
           dashColor := "cyan"
           dashRadius := "0.1"
           dashGap := "0.05"
           distObjs := st.distObjs ++ newObjs }

/-! ## C4 theorems -/

/-- C4 (counterexample): the claim's "probability at least pcut - 1e-12"
is falsified at probability exactly `pcut - 1e-12`: all of the claim's
conditions hold (probability ≥ pcut - 1e-12, both shifted residue numbers
non-zero and present in the residue set), yet the code skips the line. -/
theorem contactmap_line_at_least_false :
    displayLine [1, 2] 1 0 ⟨1, 2, 1 - eps⟩ = false ∧
    (1 : ℚ) - eps ≤ (1 : ℚ) - eps ∧ (1 + 0 : ℤ) ≠ 0 ∧ (2 + 0 : ℤ) ≠ 0 ∧
    (1 + 0 : ℤ) ∈ [(1 : ℤ), 2] ∧ (2 + 0 : ℤ) ∈ [(1 : ℤ), 2] := by
  refine ⟨?_, le_refl _, by decide, by decide, by decide, by decide⟩
  simp [displayLine, comp]

/-- C4 (amended): `contactmap` creates a distance object for a parsed line
if and only if the probability is strictly greater than `pcut - 1e-12`,
both offset-shifted residue numbers are non-zero, and both are present in
the model's residue-number set. -/
theorem contactmap_line_filter (resnums : List ℤ) (pcut : ℚ) (offset : ℤ)
    (l : MapLine) :
    displayLine resnums pcut offset l = true ↔
      (pcut - eps < l.p ∧ l.a0 + offset ≠ 0 ∧ l.b0 + offset ≠ 0 ∧
        l.a0 + offset ∈ resnums ∧ l.b0 + offset ∈ resnums) := by
  simp only [displayLine, comp, Bool.and_eq_true, Bool.not_eq_true',
    decide_eq_true_eq, decide_eq_false_iff_not, mul_eq_zero, not_or]
  tauto

/-! ## C1 theorems -/

/-- C1 (counterexample): `contactmap` is not stateless.  From an initial
host state with `dash_color = "yellow"` (and empty alignment file), the
call succeeds and returns a changed host state: the global dash settings
and `stored.resdict` are overwritten. -/
theorem contactmap_not_stateless :
    contactmap "m" "A" [(1, "ALA")] [] (999 / 1000) 0
        ⟨[], "yellow", "0.05", "0.45", []⟩ ≠
      some ⟨[], "yellow", "0.05", "0.45", []⟩ ∧
    (contactmap "m" "A" [(1, "ALA")] [] (999 / 1000) 0
        ⟨[], "yellow", "0.05", "0.45", []⟩).isSome = true := by
  exact ⟨by simp [contactmap], rfl⟩

/-- C1 (amended): not every command is stateless: `contactmap` mutates
module-level and host-global state.  After every successful invocation the
global `dash_color`, `dash_radius` and `dash_gap` settings are `cyan`,
`0.1` and `0.05`, and `stored.resdict` holds the model's residue
dictionary, regardless of their prior values. -/
theorem contactmap_state_effect (selection chain : String)
    (residues : List (ℤ × String)) (alignLines : List MapLine)
    (pcut : ℚ) (offset : ℤ) (st st' : PyMolState)
    (hsel : selection ≠ "")
    (h : contactmap selection chain residues alignLines pcut offset st = some st') :
    st'.dashColor = "cyan" ∧ st'.dashRadius = "0.1" ∧ st'.dashGap = "0.05" ∧
      st'.resdict = residues := by
  rw [contactmap, if_neg hsel] at h
  cases h
  exact ⟨rfl, rfl, rfl, rfl⟩

/-- Witness for `contactmap_state_effect` at a concrete invocation. -/
theorem contactmap_state_effect_witness :
    ("m" : String) ≠ "" ∧
    contactmap "m" "A" [(1, "ALA")] [] (999 / 1000) 0
        ⟨[], "yellow", "0.05", "0.45", []⟩ =
      some ⟨[(1, "ALA")], "cyan", "0.1", "0.05", []⟩ ∧
    (⟨[(1, "ALA")], "cyan", "0.1", "0.05", []⟩ : PyMolState).dashColor = "cyan" ∧
    (⟨[(1, "ALA")], "cyan", "0.1", "0.05", []⟩ : PyMolState).dashRadius = "0.1" ∧
    (⟨[(1, "ALA")], "cyan", "0.1", "0.05", []⟩ : PyMolState).dashGap = "0.05" ∧
    (⟨[(1, "ALA")], "cyan", "0.1", "0.05", []⟩ : PyMolState).resdict = [(1, "ALA")] :=
  ⟨by decide, rfl,
   contactmap_state_effect "m" "A" [(1, "ALA")] [] (999 / 1000) 0
     ⟨[], "yellow", "0.05", "0.45", []⟩ ⟨[(1, "ALA")], "cyan", "0.1", "0.05", []⟩
     (by decide) rfl⟩

/-! ## xtal.py: pdbremarks (C3) -/

/-- `line[0:6] == 'REMARK'` (xtal.py:196-197).  A file line is modelled as
its list of characters. -/
def isRemark (line : List Char) : Bool := decide (line.take 6 = "REMARK".toList)

/-- Value of a decimal digit character, or `none` for a non-digit. -/
def digitVal (c : Char) : Option ℕ :=
  if c.isDigit then some (c.toNat - '0'.toNat) else none

/-- Value of a list of decimal digit characters, or `none` if the list is
empty or contains a non-digit. -/
def digitsVal : List Char → Option ℕ
  | [] => none
  | [c] => digitVal c
  | c :: rest => do
      let hi ← digitVal c
      let lo ← digitsVal rest
      pure (hi * 10 ^ rest.length + lo)

/-- Python `int(s)` on a short string: surrounding spaces are stripped, an
optional sign is followed by at least one decimal digit; anything else
raises ValueError (`none`). -/
def pyInt (s : List Char) : Option ℤ :=
  let t := ((s.dropWhile (· = ' ')).reverse.dropWhile (· = ' ')).reverse
  match t with
  | '+' :: rest => (digitsVal rest).map (fun n => (n : ℤ))
  | '-' :: rest => (digitsVal rest).map (fun n => -(n : ℤ))
  | l => (digitsVal l).map (fun n => (n : ℤ))

/-- `int(line[7:10])` (xtal.py:198). -/
def remarkNum (line : List Char) : Option ℤ := pyInt ((line.drop 7).take 3)

/-- `line[11:]` (xtal.py:199). -/
def remarkBody (line : List Char) : List Char := line.drop 11

/-- A Python dict whose values are lists, as an insertion-ordered
association list. -/
abbrev Remarks := List (ℤ × List (List Char))

/-- `remarks.setdefault(num, []).append(lstring)` (xtal.py:200). -/
def setdefaultAppend (d : Remarks) (k : ℤ) (v : List Char) : Remarks :=
  match d with
  | [] => [(k, [v])]
  | (k', vs) :: rest =>
      if k' = k then (k', vs ++ [v]) :: rest else (k', vs) :: setdefaultAppend rest k v

/-- The loop of `pdbremarks` (xtal.py:195-200) over the remaining lines,
with the dictionary accumulated so far. -/
def pdbremarksAux (d : Remarks) : List (List Char) → Option Remarks
  | [] => some d
  | line :: rest =>
      if isRemark line then
        match remarkNum line with
        | none => none
        | some num => pdbremarksAux (setdefaultAppend d num (remarkBody line)) rest
      else pdbremarksAux d rest

/-- `pdbremarks` (xtal.py:180-201).  File reading and gzip handling are
host I/O and are abstracted to the sequence of lines; a ValueError from
`int` is a `none` result. -/
def pdbremarks (lines : List (List Char)) : Option Remarks :=
  pdbremarksAux [] lines

/-- Dict lookup, with the empty list for a missing key. -/
def dlookup (d : Remarks) (k : ℤ) : List (List Char) :=
  match d with
  | [] => []
  | (k', vs) :: rest => if k' = k then vs else dlookup rest k

/-- The keys of the dict. -/
def dkeys (d : Remarks) : List ℤ := d.map Prod.fst

/-- The remainders (characters from position 11 on), in file order, of the
lines whose first six characters are `REMARK` and whose characters 7-9
parse to `num`. -/
def remarksOf (lines : List (List Char)) (num : ℤ) : List (List Char) :=
  (lines.filter (fun l => isRemark l && decide (remarkNum l = some num))).map remarkBody

theorem dlookup_setdefaultAppend (d : Remarks) (k : ℤ) (v : List Char) (q : ℤ) :
    dlookup (setdefaultAppend d k v) q =
      dlookup d q ++ (if q = k then [v] else []) := by
  induction d with
  | nil =>
      by_cases h : q = k
      · subst h; simp [setdefaultAppend, dlookup]
      · simp [setdefaultAppend, dlookup, h, Ne.symm h]
  | cons hd tl ih =>
      obtain ⟨k0, vs⟩ := hd
      by_cases h0 : k0 = k
      · subst h0
        by_cases h1 : q = k0
        · subst h1; simp [setdefaultAppend, dlookup]
        · simp [setdefaultAppend, dlookup, h1, Ne.symm h1]
      · by_cases h1 : k0 = q
        · subst h1
          simp [setdefaultAppend, dlookup, h0]
        · simp [setdefaultAppend, dlookup, h0, h1, ih]

theorem mem_dkeys_setdefaultAppend (d : Remarks) (k : ℤ) (v : List Char) (k' : ℤ) :
    k' ∈ dkeys (setdefaultAppend d k v) ↔ k' ∈ dkeys d ∨ k' = k := by
  induction d with
  | nil => simp [setdefaultAppend, dkeys]
  | cons hd tl ih =>
      obtain ⟨k0, vs⟩ := hd
      by_cases h0 : k0 = k
      · subst h0
        simp [setdefaultAppend, dkeys]
        tauto
      · simp [setdefaultAppend, dkeys, h0] at ih ⊢
        tauto

theorem pdbremarksAux_lookup (lines : List (List Char)) (d0 d : Remarks)
    (h : pdbremarksAux d0 lines = some d) (num : ℤ) :
    dlookup d num = dlookup d0 num ++ remarksOf lines num := by
  induction lines generalizing d0 with
  | nil =>
      simp [pdbremarksAux] at h
      subst h
      simp [remarksOf]
  | cons line rest ih =>
      by_cases hr : isRemark line
      · rw [pdbremarksAux, if_pos hr] at h
        cases hn : remarkNum line with
        | none => rw [hn] at h; exact absurd h (by simp)
        | some n =>
            rw [hn] at h
            rw [ih _ h, dlookup_setdefaultAppend]
            by_cases hm : num = n
            · subst hm
              simp [remarksOf, hr, hn, List.append_assoc]
            · have hne : ¬(remarkNum line = some num) := by
                rw [hn]
                simp
                exact fun hc => hm hc.symm
              simp [remarksOf, List.filter_cons, hne, hm]
      · rw [pdbremarksAux, if_neg hr] at h
        rw [ih _ h]
        simp [remarksOf, hr]

theorem pdbremarksAux_keys (lines : List (List Char)) (d0 d : Remarks)
    (h : pdbremarksAux d0 lines = some d) (num : ℤ) :
    num ∈ dkeys d ↔
      num ∈ dkeys d0 ∨ ∃ l ∈ lines, isRemark l = true ∧ remarkNum l = some num := by
  induction lines generalizing d0 with
  | nil =>
      simp [pdbremarksAux] at h
      subst h
      simp
  | cons line rest ih =>
      by_cases hr : isRemark line
      · rw [pdbremarksAux, if_pos hr] at h
        cases hn : remarkNum line with
        | none => rw [hn] at h; exact absurd h (by simp)
        | some n =>
            rw [hn] at h
            rw [ih _ h]
            rw [mem_dkeys_setdefaultAppend]
            constructor
            · rintro ((hk | rfl) | ⟨l, hl, h1, h2⟩)
              · exact Or.inl hk
              · exact Or.inr ⟨line, by simp, hr, hn⟩
              · exact Or.inr ⟨l, by simp [hl], h1, h2⟩
            · rintro (hk | ⟨l, hl, h1, h2⟩)
              · exact Or.inl (Or.inl hk)
              · rcases List.mem_cons.mp hl with rfl | hl'
                · rw [hn] at h2
                  exact Or.inl (Or.inr (Option.some_injective _ h2).symm)
                · exact Or.inr ⟨l, hl', h1, h2⟩
      · rw [pdbremarksAux, if_neg hr] at h
        rw [ih _ h]
        constructor
        · rintro (hk | ⟨l, hl, h1, h2⟩)
          · exact Or.inl hk
          · exact Or.inr ⟨l, by simp [hl], h1, h2⟩
        · rintro (hk | ⟨l, hl, h1, h2⟩)
          · exact Or.inl hk
          · rcases List.mem_cons.mp hl with rfl | hl'
            · exact absurd h1 (by simp [hr])
            · exact Or.inr ⟨l, hl', h1, h2⟩

/-- C3: `pdbremarks` correctly parses a REMARK block.  If it returns a
dictionary (no ValueError), then (a) each key maps to exactly the
remainders (characters from position 11 on), in file order, of the lines
whose first six characters are `REMARK` and whose characters 7-9 parse to
that key (a key absent from the dictionary maps to the empty list, and
lines not starting with `REMARK` contribute nothing), and (b) the keys are
exactly the integers parsed from characters 7-9 of the `REMARK` lines. -/
theorem pdbremarks_correct (lines : List (List Char)) (d : Remarks)
    (h : pdbremarks lines = some d) :
    (∀ num : ℤ, dlookup d num = remarksOf lines num) ∧
    (∀ num : ℤ,
      num ∈ dkeys d ↔ ∃ l ∈ lines, isRemark l = true ∧ remarkNum l = some num) := by
  constructor
  · intro num
    have := pdbremarksAux_lookup lines [] d h num
    simpa [dlookup] using this
  · intro num
    have := pdbremarksAux_keys lines [] d h num
    simpa [dkeys] using this

/-- Witness for `pdbremarks_correct` on a concrete two-line file. -/
theorem pdbremarks_correct_witness :
    pdbremarks ["REMARK 350 APPLY".toList, "ATOM      1".toList] =
      some [(350, ["APPLY".toList])] ∧
    dlookup [(350, ["APPLY".toList])] 350 =
      remarksOf ["REMARK 350 APPLY".toList, "ATOM      1".toList] 350 ∧
    (350 ∈ dkeys [((350 : ℤ), ["APPLY".toList])] ↔
      ∃ l ∈ ["REMARK 350 APPLY".toList, "ATOM      1".toList],
        isRemark l = true ∧ remarkNum l = some 350) :=
  ⟨by decide,
   (pdbremarks_correct _ _ (by decide)).1 350,
   (pdbremarks_correct _ _ (by decide)).2 350⟩

/-! ## querying.py: centerofmass (C9) and gyradius (C6)

An atom as delivered by `cmd.get_model`: coordinates, `get_mass()` and
occupancy `q`.  A processed state is the atom list of that state's model;
the list of processed states is the `states` list built at
querying.py:36-42 / 71-77. -/

structure Atom where
  coord : ℚ × ℚ × ℚ
  mass  : ℚ
  q     : ℚ
deriving DecidableEq

/-- `chempy.cpv.get_null()`. -/
def get_null : ℚ × ℚ × ℚ := (0, 0, 0)

/-- `chempy.cpv.scale(v, m)`. -/
def scale (v : ℚ × ℚ × ℚ) (m : ℚ) : ℚ × ℚ × ℚ := (v.1 * m, v.2.1 * m, v.2.2 * m)

/-- `chempy.cpv.add(u, v)`. -/
def cpvadd (u v : ℚ × ℚ × ℚ) : ℚ × ℚ × ℚ := (u.1 + v.1, u.2.1 + v.2.1, u.2.2 + v.2.2)

/-- `chempy.cpv.dot_product(u, v)`. -/
def dot_product (u v : ℚ × ℚ × ℚ) : ℚ :=
  u.1 * v.1 + u.2.1 * v.2.1 + u.2.2 * v.2.2

/-- Loop body of `centerofmass` (querying.py:47-52): atoms with `q == 0.0`
are skipped, otherwise `m = get_mass() * q` is accumulated into `com` and
`totmass`. -/
def comStep (acc : (ℚ × ℚ × ℚ) × ℚ) (a : Atom) : (ℚ × ℚ × ℚ) × ℚ :=
  if a.q = 0 then acc
  else (cpvadd acc.1 (scale a.coord (a.mass * a.q)), acc.2 + a.mass * a.q)

/-- `centerofmass` (querying.py:11-56).  The final
`com = cpv.scale(com, 1./totmass)` raises ZeroDivisionError when
`totmass == 0.0`, modelled as `none`. -/
def centerofmass (states : List (List Atom)) : Option (ℚ × ℚ × ℚ) :=
  let acc := states.foldl (fun acc atoms => atoms.foldl comStep acc) (get_null, 0)
  if acc.2 = 0 then none else some (scale acc.1 (1 / acc.2))

/-- The total weighted mass of a selection: the sum over atoms of
`get_mass() * q`, skipping atoms with occupancy exactly `0.0`. -/
def totalWeightedMass (states : List (List Atom)) : ℚ :=
  (states.map (fun atoms =>
    ((atoms.filter (fun a => decide (a.q ≠ 0))).map (fun a => a.mass * a.q)).sum)).sum

theorem comStep_foldl_snd (atoms : List Atom) (acc : (ℚ × ℚ × ℚ) × ℚ) :
    (atoms.foldl comStep acc).2 =
      acc.2 + ((atoms.filter (fun a => decide (a.q ≠ 0))).map (fun a => a.mass * a.q)).sum := by
  induction atoms generalizing acc with
  | nil => simp
  | cons a rest ih =>
      by_cases hq : a.q = 0
      · simp [comStep, hq, ih]
      · simp [comStep, hq, ih]
        ring

theorem centerofmass_totmass (states : List (List Atom)) :
    (states.foldl (fun acc atoms => atoms.foldl comStep acc) (get_null, 0)).2 =
      totalWeightedMass states := by
  suffices h : ∀ acc : (ℚ × ℚ × ℚ) × ℚ,
      (states.foldl (fun acc atoms => atoms.foldl comStep acc) acc).2 =
        acc.2 + totalWeightedMass states by
    simpa using h (get_null, 0)
  induction states with
  | nil => intro acc; simp [totalWeightedMass]
  | cons atoms rest ih =>
      intro acc
      simp only [List.foldl_cons, ih, comStep_foldl_snd, totalWeightedMass,
        List.map_cons, List.sum_cons]
      ring

/-- C9: `centerofmass` has an unguarded division.  Whenever the total
weighted mass (the sum over atoms of mass times occupancy, skipping atoms
with occupancy exactly `0.0`) is zero — in particular for an empty
selection or one in which every atom has zero occupancy — the final
`cpv.scale(com, 1./totmass)` raises ZeroDivisionError instead of
returning a coordinate. -/
theorem centerofmass_div_by_zero (states : List (List Atom))
    (h : totalWeightedMass states = 0) :
    centerofmass states = none := by
  rw [centerofmass]
  simp only [centerofmass_totmass, h, if_pos]

/-- Witness for `centerofmass_div_by_zero`: a single state whose model has
one atom with zero occupancy. -/
theorem centerofmass_div_by_zero_witness :
    totalWeightedMass [[⟨(1, 2, 3), 12, 0⟩]] = 0 ∧
    centerofmass [[⟨(1, 2, 3), 12, 0⟩]] = none :=
  ⟨by simp [totalWeightedMass],
   centerofmass_div_by_zero _ (by simp [totalWeightedMass])⟩

/-- Per-state body of the `gyradius` loop (querying.py:79-87), verbatim
from the source: `x` collects the coordinates of ALL atoms, while `mass`
collects `get_mass() * q` only for atoms with `q > 0`, and the two lists
are combined positionally with `zip` (which also truncates to the shorter
list).  `tmass == 0.0` makes `rr/tmass` raise ZeroDivisionError (`none`). -/
def gyradiusStateSq (atoms : List Atom) : Option ℚ :=
  let x := atoms.map (fun a => a.coord)
  let mass := (atoms.filter (fun a => decide (0 < a.q))).map (fun a => a.mass * a.q)
  let xm := List.zipWith scale x mass
  let tmass := mass.sum
  if tmass = 0 then none
  else
    let rr := (List.zipWith dot_product x xm).sum
    let mm := ((xm.map (fun v => v.1)).sum / tmass) ^ 2 +
      ((xm.map (fun v => v.2.1)).sum / tmass) ^ 2 +
      ((xm.map (fun v => v.2.2)).sum / tmass) ^ 2
    some (rr / tmass - mm)

/-- Collect the per-state values of the loop, propagating a raised
exception (`none`) from any state. -/
def statesMap (f : List Atom → Option ℚ) : List (List Atom) → Option (List ℚ)
  | [] => some []
  | atoms :: rest => do
      let v ← f atoms
      let l ← statesMap f rest
      pure (v :: l)

/-- The mean over the processed states of the per-state squared radius of
`gyradius` (querying.py:78-88); the code returns this value to the power
`0.5`.  An empty state list is `sum([])/len([])`, a ZeroDivisionError. -/
def gyradiusSq (states : List (List Atom)) : Option ℚ := do
  let l ← statesMap gyradiusStateSq states
  if l.length = 0 then none else some (l.sum / l.length)

/-- The per-state squared radius the claim describes:
`(sum_i m_i*q_i*|x_i|^2)/(sum_i m_i*q_i) - |(sum_i m_i*q_i*x_i)/(sum_i m_i*q_i)|^2`
with each weight `m_i*q_i` paired to its own atom's coordinates (atoms
with `q_i = 0` contributing zero weight). -/
def claimStateSq (atoms : List Atom) : Option ℚ :=
  let w := atoms.map (fun a => a.mass * a.q)
  let tw := w.sum
  if tw = 0 then none
  else
    let num := (atoms.map (fun a => a.mass * a.q * dot_product a.coord a.coord)).sum
    let cx := (atoms.map (fun a => a.mass * a.q * a.coord.1)).sum / tw
    let cy := (atoms.map (fun a => a.mass * a.q * a.coord.2.1)).sum / tw
    let cz := (atoms.map (fun a => a.mass * a.q * a.coord.2.2)).sum / tw
    some (num / tw - (cx ^ 2 + cy ^ 2 + cz ^ 2))

/-- Mean over states of the claim's per-state squared radius. -/
def claimGyradiusSq (states : List (List Atom)) : Option ℚ := do
  let l ← statesMap claimStateSq states
  if l.length = 0 then none else some (l.sum / l.length)

/-- C6 (code bug): `gyradius` mispairs weights and coordinates.  In a
single-state selection with atoms `((10,0,0), mass 1, q 0)`,
`((0,0,0), mass 1, q 1)`, `((4,0,0), mass 3, q 1)`, the `zip` of the
unfiltered coordinate list with the `q > 0`-filtered mass list pairs the
zero-occupancy atom's coordinates with the second atom's weight and drops
the third atom entirely: the code's mean squared radius is `75/4`, while
the claimed weights-paired-to-their-own-atoms value is `3`. -/
theorem gyradius_mispairs_weights :
    gyradiusSq [[⟨(10, 0, 0), 1, 0⟩, ⟨(0, 0, 0), 1, 1⟩, ⟨(4, 0, 0), 3, 1⟩]] =
      some (75 / 4) ∧
    claimGyradiusSq [[⟨(10, 0, 0), 1, 0⟩, ⟨(0, 0, 0), 1, 1⟩, ⟨(4, 0, 0), 3, 1⟩]] =
      some 3 ∧
    (75 / 4 : ℚ) ≠ 3 ∧
    Real.sqrt (75 / 4) ≠ Real.sqrt 3 := by
  refine ⟨?_, ?_, by norm_num, ?_⟩
  · norm_num [gyradiusSq, gyradiusStateSq, statesMap, scale, dot_product]
  · norm_num [claimGyradiusSq, claimStateSq, statesMap, dot_product]
  · rw [Ne, Real.sqrt_inj (by norm_num) (by norm_num)]
    norm_num

/-! ## querying.py: print_dihedrals restraint limits (C7)

The local helper functions of `print_dihedrals` (querying.py:353-415).
For an `ss` argument other than `''`, `'alpha'` and `'beta'` the Python
functions fall through and return `None`, modelled as `none`. -/

/-- querying.py:353-364. -/
def phir2limit (x sigma : ℚ) (ss : String) : Option ℚ :=
  if ss = "" then some (if x - sigma ≤ -180 then -180 else x - sigma)
  else if ss = "alpha" then some (-100)
  else if ss = "beta" then some (-180)
  else none

/-- querying.py:366-377. -/
def phir3limit (x sigma : ℚ) (ss : String) : Option ℚ :=
  if ss = "" then some (if 180 ≤ x + sigma then 180 else x + sigma)
  else if ss = "alpha" then some (-45)
  else if ss = "beta" then some (-90)
  else none

/-- querying.py:379-390. -/
def psir2limit (x sigma : ℚ) (ss : String) : Option ℚ :=
  if ss = "" then some (if x - sigma ≤ -180 then -180 else x - sigma)
  else if ss = "alpha" then some (-60)
  else if ss = "beta" then some 90
  else none

/-- querying.py:392-403. -/
def psir3limit (x sigma : ℚ) (ss : String) : Option ℚ :=
  if ss = "" then some (if 180 ≤ x + sigma then 180 else x + sigma)
  else if ss = "alpha" then some (-20)
  else if ss = "beta" then some 180
  else none

/-- querying.py:405-409 (chi1, no `ss` argument). -/
def r2limit (x sigma : ℚ) : ℚ :=
  if x - sigma ≤ -180 then -180 else x - sigma

/-- querying.py:411-415. -/
def r3limit (x sigma : ℚ) : ℚ :=
  if 180 ≤ x + sigma then 180 else x + sigma

theorem r2limit_eq_max (x sigma : ℚ) : r2limit x sigma = max (x - sigma) (-180) := by
  rw [r2limit]
  rcases le_or_lt (x - sigma) (-180) with h | h
  · rw [if_pos h, max_eq_right h]
  · rw [if_neg (not_le_of_lt h), max_eq_left h.le]

theorem r3limit_eq_min (x sigma : ℚ) : r3limit x sigma = min (x + sigma) 180 := by
  rw [r3limit]
  rcases le_or_lt (180 : ℚ) (x + sigma) with h | h
  · rw [if_pos h, min_eq_right h]
  · rw [if_neg (not_le_of_lt h), min_eq_left h.le]

/-- C7: with `ss = ''` and the hard-coded width `sigma = 10.0`
(querying.py:417-437), every printed lower restraint bound is
`max(x - 10, -180)` and every printed upper bound is `min(x + 10, 180)`
(for phi, psi and chi1 alike); and for `x` in `[-180, 180]` the lower
bound is at most the upper bound and both lie in `[-180, 180]`. -/
theorem dihedral_limits_clamped (x : ℚ) (h1 : -180 ≤ x) (h2 : x ≤ 180) :
    phir2limit x 10 "" = some (max (x - 10) (-180)) ∧
    phir3limit x 10 "" = some (min (x + 10) 180) ∧
    psir2limit x 10 "" = some (max (x - 10) (-180)) ∧
    psir3limit x 10 "" = some (min (x + 10) 180) ∧
    r2limit x 10 = max (x - 10) (-180) ∧
    r3limit x 10 = min (x + 10) 180 ∧
    max (x - 10) (-180) ≤ min (x + 10) 180 ∧
    -180 ≤ max (x - 10) (-180) ∧ max (x - 10) (-180) ≤ 180 ∧
    -180 ≤ min (x + 10) 180 ∧ min (x + 10) 180 ≤ 180 := by
  have hlow : max (x - 10) (-180) ≤ x := max_le (by linarith) h1
  have hhigh : x ≤ min (x + 10) 180 := le_min (by linarith) h2
  refine ⟨?_, ?_, ?_, ?_, r2limit_eq_max x 10, r3limit_eq_min x 10,
    le_trans hlow (le_trans (le_refl x) hhigh),
    le_max_right _ _, le_trans hlow h2, le_trans h1 hhigh, min_le_right _ _⟩
  · rw [phir2limit, if_pos rfl, ← r2limit, r2limit_eq_max]
  · rw [phir3limit, if_pos rfl, ← r3limit, r3limit_eq_min]
  · rw [psir2limit, if_pos rfl, ← r2limit, r2limit_eq_max]
  · rw [psir3limit, if_pos rfl, ← r3limit, r3limit_eq_min]

/-- Witness for `dihedral_limits_clamped` at the measured angle `x = 175`. -/
theorem dihedral_limits_clamped_witness :
    (-180 : ℚ) ≤ 175 ∧ (175 : ℚ) ≤ 180 ∧
    (phir2limit 175 10 "" = some (max (175 - 10) (-180)) ∧
     phir3limit 175 10 "" = some (min (175 + 10) 180) ∧
     psir2limit 175 10 "" = some (max (175 - 10) (-180)) ∧
     psir3limit 175 10 "" = some (min (175 + 10) 180) ∧
     r2limit 175 10 = max (175 - 10) (-180) ∧
     r3limit 175 10 = min (175 + 10) 180 ∧
     max (175 - 10 : ℚ) (-180) ≤ min (175 + 10) 180 ∧
     (-180 : ℚ) ≤ max (175 - 10) (-180) ∧ max (175 - 10 : ℚ) (-180) ≤ 180 ∧
     (-180 : ℚ) ≤ min (175 + 10) 180 ∧ min (175 + 10 : ℚ) 180 ≤ 180) :=
  ⟨by norm_num, by norm_num,
   dihedral_limits_clamped 175 (by norm_num) (by norm_num)⟩

/-! ## querying.py: get_sasa (C10)

Host model for the PyMOL API calls made by `get_sasa`
(querying.py:127-148).  Object names are modelled as naturals and object
contents as naturals.  `cmd.get_unused_name` returns a name not currently
in use; `cmd.create(n, selection, state, 1, ...)` loads a new object whose
content is the extraction of the selection at the source state (the
extraction itself is host physics, kept as an abstract function);
`cmd.set(setting, value, n)` attaches an object-level setting override;
`cmd.get_area(n)` is host physics computing from the object's content and
its effective `dot_solvent`/`dot_density` settings; `cmd.delete(n)`
removes the object and its object-level settings. -/

structure SasaHost where
  objects          : List (ℕ × ℕ)
  curState         : ℕ
  dotSolventGlobal : ℚ
  dotDensityGlobal : ℚ
  objSettings      : List (ℕ × ℚ × Option ℚ)
deriving DecidableEq

/-- `cmd.get_unused_name`: a name not among the used ones. -/
def freshName (used : List ℕ) : ℕ := used.foldr max 0 + 1

theorem le_foldr_max (l : List ℕ) (x : ℕ) (h : x ∈ l) : x ≤ l.foldr max 0 := by
  induction l with
  | nil => cases h
  | cons a rest ih =>
      rcases List.mem_cons.mp h with rfl | h'
      · exact le_max_left _ _
      · exact le_trans (ih h') (le_max_right _ _)

theorem freshName_not_mem (used : List ℕ) : freshName used ∉ used := by
  intro h
  exact absurd (le_foldr_max used _ h) (by simp [freshName])

theorem filter_ne_of_not_mem_fst {α : Type} (l : List (ℕ × α)) (n : ℕ)
    (h : n ∉ l.map Prod.fst) : l.filter (fun p => decide (p.1 ≠ n)) = l := by
  induction l with
  | nil => rfl
  | cons p rest ih =>
      simp only [List.map_cons, List.mem_cons, not_or] at h
      rw [List.filter_cons, if_pos (by simpa using Ne.symm h.1), ih h.2]

/-- `get_sasa` (querying.py:127-148).  `extract sel st` is the content
created by `cmd.create` from selection `sel` at state `st`; `area c ds dd`
is the host's `cmd.get_area` on content `c` under effective settings
`dot_solvent = ds`, `dot_density = dd`.  Returns the area and the host
state after the call. -/
def get_sasa (extract : ℕ → ℕ → ℕ) (area : ℕ → ℚ → ℚ → ℚ)
    (selection : ℕ) (state : ℤ) (dot_density : ℤ) (h : SasaHost) :
    ℚ × SasaHost :=
  let st : ℕ := if state < 1 then h.curState else state.toNat
  let n := freshName (h.objects.map Prod.fst)
  let content := extract selection st
  let objects1 := h.objects ++ [(n, content)]
  let densOverride : Option ℚ := if dot_density > -1 then some (dot_density : ℚ) else none
  let objSettings1 := (n, (1 : ℚ), densOverride) :: h.objSettings
  let effDensity := densOverride.getD h.dotDensityGlobal
  let r := area content 1 effDensity
  (r, { h with
        objects := objects1.filter (fun p => decide (p.1 ≠ n))
        objSettings := objSettings1.filter (fun p => decide (p.1 ≠ n)) })

/-- C10: `get_sasa` leaves the host unchanged: it computes the area on a
temporary copy created under a fresh unused name, scopes the
`dot_solvent`/`dot_density` settings to that copy only, deletes it before
returning, and returns the area of the copy under `dot_solvent = 1` and
the requested (or, when `dot_density ≤ -1`, the pre-existing global)
`dot_density`.  The hypothesis is the host invariant that object-level
settings belong to loaded objects. -/
theorem get_sasa_stateless (extract : ℕ → ℕ → ℕ) (area : ℕ → ℚ → ℚ → ℚ)
    (selection : ℕ) (state : ℤ) (dot_density : ℤ) (h : SasaHost)
    (hinv : ∀ p ∈ h.objSettings, p.1 ∈ h.objects.map Prod.fst) :
    (get_sasa extract area selection state dot_density h).2 = h ∧
    (get_sasa extract area selection state dot_density h).1 =
      area (extract selection (if state < 1 then h.curState else state.toNat)) 1
        (if dot_density > -1 then (dot_density : ℚ) else h.dotDensityGlobal) ∧
    freshName (h.objects.map Prod.fst) ∉ h.objects.map Prod.fst := by
  have hfresh := freshName_not_mem (h.objects.map Prod.fst)
  refine ⟨?_, ?_, hfresh⟩
  · rw [get_sasa]
    have hobj : (h.objects ++ [(freshName (h.objects.map Prod.fst),
        extract selection (if state < 1 then h.curState else state.toNat))]).filter
        (fun p => decide (p.1 ≠ freshName (h.objects.map Prod.fst))) = h.objects := by
      rw [List.filter_append]
      rw [filter_ne_of_not_mem_fst _ _ hfresh]
      simp
    have hset : ((freshName (h.objects.map Prod.fst), (1 : ℚ),
        if dot_density > -1 then some (dot_density : ℚ) else none) ::
          h.objSettings).filter
        (fun p => decide (p.1 ≠ freshName (h.objects.map Prod.fst))) =
        h.objSettings := by
      rw [List.filter_cons, if_neg (by simp)]
      refine filter_ne_of_not_mem_fst _ _ ?_
      intro hmem
      rcases List.mem_map.mp hmem with ⟨p, hp, hpeq⟩
      exact hfresh (hpeq ▸ hinv p hp)
    simp only [hobj, hset]
  · rw [get_sasa]
    by_cases hd : dot_density > -1 <;> simp [hd]

/-- A concrete extraction function used to witness `get_sasa_stateless`. -/
def wExtract : ℕ → ℕ → ℕ := fun s st => s + st

/-- A concrete area function used to witness `get_sasa_stateless`. -/
def wArea : ℕ → ℚ → ℚ → ℚ := fun c ds dd => (c : ℚ) + ds + dd

/-- Witness for `get_sasa_stateless` on a concrete host with one loaded
object and default density argument 5. -/
theorem get_sasa_stateless_witness :
    (∀ p ∈ (⟨[(7, 42)], 1, 0, 2, []⟩ : SasaHost).objSettings,
      p.1 ∈ (⟨[(7, 42)], 1, 0, 2, []⟩ : SasaHost).objects.map Prod.fst) ∧
    ((get_sasa wExtract wArea 3 (-1) 5
        ⟨[(7, 42)], 1, 0, 2, []⟩).2 = ⟨[(7, 42)], 1, 0, 2, []⟩ ∧
     (get_sasa wExtract wArea 3 (-1) 5
        ⟨[(7, 42)], 1, 0, 2, []⟩).1 =
       wArea
         (wExtract 3
           (if (-1 : ℤ) < 1 then (⟨[(7, 42)], 1, 0, 2, []⟩ : SasaHost).curState
            else (-1 : ℤ).toNat)) 1
         (if (5 : ℤ) > -1 then ((5 : ℤ) : ℚ)
          else (⟨[(7, 42)], 1, 0, 2, []⟩ : SasaHost).dotDensityGlobal) ∧
     freshName ((⟨[(7, 42)], 1, 0, 2, []⟩ : SasaHost).objects.map Prod.fst) ∉
       (⟨[(7, 42)], 1, 0, 2, []⟩ : SasaHost).objects.map Prod.fst) :=
  ⟨by simp,
   get_sasa_stateless wExtract wArea 3 (-1) 5
     ⟨[(7, 42)], 1, 0, 2, []⟩ (by simp)⟩

/-! ## electrostatics.py: map_new_apbs solver loop (C2)

The solver invocation loop of `map_new_apbs` (electrostatics.py:158-184).
The external APBS executable is modelled by an oracle mapping the index of
the invocation to its exit status.  Each attempt writes an input file whose
`dime` line is computed from the current grid spacing and runs the solver
once; `grid`, `fglen` and `dime` are the only loop-dependent data. -/

/-- `dime = [1 + max(64, n / grid) for n in fglen]`, then formatted with
`'%d %d %d'`, which truncates the (positive) floats toward zero
(electrostatics.py:162-163). -/
def dimeOf (grid : ℚ) (fglen : List ℚ) : List ℤ :=
  fglen.map (fun n => ⌊1 + max 64 (n / grid)⌋)

/-- Outcome of the `try` block around the loop (electrostatics.py:158-187):
the map was loaded, or `CmdException('apbs failed with code r')` was
raised, or the loop exhausted its three iterations without a successful
run and `CmdException('dx file missing')` was raised. -/
inductive ApbsOutcome where
  | loaded
  | failCode (r : ℤ)
  | dxMissing
deriving DecidableEq

/-- The `for _ in range(3)` loop (electrostatics.py:161-180): run the
solver; exit status 0 breaks out, statuses -6 and -9 double `grid` and
retry, any other status raises.  Returns the list of `(grid, dime)` pairs
of the solver invocations actually performed, and the outcome. -/
def apbsLoop (oracle : ℕ → ℤ) (fglen : List ℚ) :
    ℕ → ℕ → ℚ → List (ℚ × List ℤ) → List (ℚ × List ℤ) × ApbsOutcome
  | 0, _, _, acc => (acc.reverse, ApbsOutcome.dxMissing)
  | fuel + 1, i, grid, acc =>
      let acc' := (grid, dimeOf grid fglen) :: acc
      let r := oracle i
      if r = 0 then (acc'.reverse, ApbsOutcome.loaded)
      else if r = -6 ∨ r = -9 then apbsLoop oracle fglen fuel (i + 1) (grid * 2) acc'
      else (acc'.reverse, ApbsOutcome.failCode r)

/-- The solver-facing behaviour of `map_new_apbs` (electrostatics.py:75-194)
for a given initial grid spacing: the list of solver invocations (grid and
dime of each) and the outcome. -/
def map_new_apbs (oracle : ℕ → ℤ) (grid : ℚ) (fglen : List ℚ) :
    List (ℚ × List ℤ) × ApbsOutcome :=
  apbsLoop oracle fglen 3 0 grid []

/-- C2 (counterexample): when the solver keeps exiting with status -6 the
executable is run three times, not at most once, with the grid spacing
doubled on each retry (grids 1/2, 1, 2), and the operation then fails with
the missing-dx error. -/
theorem map_new_apbs_retries :
    (map_new_apbs (fun _ => -6) (1 / 2) [128, 128, 128]).1.map Prod.fst =
      [1 / 2, 1, 2] ∧
    (map_new_apbs (fun _ => -6) (1 / 2) [128, 128, 128]).1.length = 3 ∧
    ¬((map_new_apbs (fun _ => -6) (1 / 2) [128, 128, 128]).1.length ≤ 1) ∧
    (map_new_apbs (fun _ => -6) (1 / 2) [128, 128, 128]).2 =
      ApbsOutcome.dxMissing := by
  refine ⟨?_, ?_, by norm_num [map_new_apbs, apbsLoop], ?_⟩ <;>
    norm_num [map_new_apbs, apbsLoop]

/-- C2 (amended): a non-zero solver exit status other than -6 and -9 makes
`map_new_apbs` fail immediately: the solver has run exactly once, with the
original grid spacing, and no retry happens; only exit statuses -6 and -9
trigger a retry with doubled grid spacing, and at most three runs ever
happen. -/
theorem map_new_apbs_no_retry (oracle : ℕ → ℤ) (grid : ℚ) (fglen : List ℚ)
    (h0 : oracle 0 ≠ 0) (h6 : oracle 0 ≠ -6) (h9 : oracle 0 ≠ -9) :
    (map_new_apbs oracle grid fglen).1 = [(grid, dimeOf grid fglen)] ∧
    (map_new_apbs oracle grid fglen).2 = ApbsOutcome.failCode (oracle 0) ∧
    (map_new_apbs oracle grid fglen).1.length ≤ 3 := by
  rw [map_new_apbs, apbsLoop]
  simp [if_neg h0, if_neg (by simp [h6, h9] : ¬(oracle 0 = -6 ∨ oracle 0 = -9))]

/-- Witness for `map_new_apbs_no_retry`: a solver that exits with status 1. -/
theorem map_new_apbs_no_retry_witness :
    ((fun _ => 1 : ℕ → ℤ) 0 ≠ 0) ∧ ((fun _ => 1 : ℕ → ℤ) 0 ≠ -6) ∧
    ((fun _ => 1 : ℕ → ℤ) 0 ≠ -9) ∧
    ((map_new_apbs (fun _ => 1) 1 [64]).1 = [(1, dimeOf 1 [64])] ∧
     (map_new_apbs (fun _ => 1) 1 [64]).2 = ApbsOutcome.failCode ((fun _ => 1 : ℕ → ℤ) 0) ∧
     (map_new_apbs (fun _ => 1) 1 [64]).1.length ≤ 3) :=
  ⟨by decide, by decide, by decide,
   map_new_apbs_no_retry (fun _ => 1) 1 [64] (by decide) (by decide) (by decide)⟩

/-! ## xtal.py: cellbasis (C5, C8)

`cellbasis(angles, edges)` (xtal.py:11-29) builds a 4x4 matrix from the
cell angles (degrees) and then multiplies it elementwise-by-column with
`edges + [1.0]` (numpy array-by-vector broadcasting).  The trigonometry
forces ℝ. -/

/-- `math.radians` (xtal.py:21). -/
noncomputable def deg2rad (x : ℝ) : ℝ := x * (Real.pi / 180)

/-- `basis[1][2] = (cos(rad[0]) - basis[0][1]*basis[0][2])/basis[1][1]`
(xtal.py:26), where `rad[0]`, `rad[1]`, `rad[2]` are alpha, beta, gamma in
radians, `basis[0][1] = cos(rad[2])`, `basis[0][2] = cos(rad[1])` and
`basis[1][1] = sin(rad[2])`. -/
noncomputable def b12val (alpha beta gamma : ℝ) : ℝ :=
  (Real.cos (deg2rad alpha) - Real.cos (deg2rad gamma) * Real.cos (deg2rad beta)) /
    Real.sin (deg2rad gamma)

/-- The argument of the square root in
`basis[2][2] = sqrt(1 - basis[0][2]**2 - basis[1][2]**2)` (xtal.py:27). -/
noncomputable def sqrtArg (alpha beta gamma : ℝ) : ℝ :=
  1 - Real.cos (deg2rad beta) ^ 2 - b12val alpha beta gamma ^ 2

/-- The `basis` matrix after the entry assignments of xtal.py:22-27
(`numpy.identity(4)` with the five assigned entries). -/
noncomputable def basisMat (alpha beta gamma : ℝ) : Fin 4 → Fin 4 → ℝ :=
  ![![1, Real.cos (deg2rad gamma), Real.cos (deg2rad beta), 0],
    ![0, Real.sin (deg2rad gamma), b12val alpha beta gamma, 0],
    ![0, 0, Real.sqrt (sqrtArg alpha beta gamma), 0],
    ![0, 0, 0, 1]]

/-- The matrix returned by `cellbasis` for `angles = [alpha, beta, gamma]`
and `edges = [a, b, c]`: `basis * edges` after `edges.append(1.0)`, which
in numpy broadcasting scales column `j` by `edges[j]` (xtal.py:28-29). -/
noncomputable def cellbasis (alpha beta gamma a b c : ℝ) : Fin 4 → Fin 4 → ℝ :=
  fun i j => basisMat alpha beta gamma i j * ![a, b, c, 1] j

/-- The 3-D part of column `j` of a 4x4 matrix. -/
noncomputable def colv (M : Fin 4 → Fin 4 → ℝ) (j : Fin 4) : Fin 3 → ℝ :=
  fun i => M i.castSucc j

/-- Euclidean dot product on 3-vectors. -/
noncomputable def dot3 (u v : Fin 3 → ℝ) : ℝ := u 0 * v 0 + u 1 * v 1 + u 2 * v 2

/-- Euclidean norm on 3-vectors. -/
noncomputable def norm3 (v : Fin 3 → ℝ) : ℝ := Real.sqrt (dot3 v v)

/-- The angle (in radians) between two 3-vectors. -/
noncomputable def angle3 (u v : Fin 3 → ℝ) : ℝ :=
  Real.arccos (dot3 u v / (norm3 u * norm3 v))

theorem deg2rad_mem (t : ℝ) (h0 : 0 < t) (h1 : t < 180) :
    0 < deg2rad t ∧ deg2rad t < Real.pi := by
  constructor
  · exact mul_pos h0 (by positivity)
  · have : deg2rad t < 180 * (Real.pi / 180) :=
      mul_lt_mul_of_pos_right h1 (by positivity)
    calc deg2rad t < 180 * (Real.pi / 180) := this
      _ = Real.pi := by ring

theorem cos_deg2rad_ninety : Real.cos (deg2rad 90) = 0 := by
  have h : deg2rad 90 = Real.pi / 2 := by rw [deg2rad]; ring
  rw [h, Real.cos_pi_div_two]

/-- C5 (counterexample): the claim assigns `gamma` to the angle between
columns 1 and 2, but for the cell `alpha = 90, beta = 90, gamma = 60`
(edges 1,1,1) the angle between columns 1 and 2 of the returned matrix is
90 degrees (`deg2rad 90 = pi/2`), the cell angle `alpha`, and not
`deg2rad 60 = pi/3`. -/
theorem cellbasis_angle_col12_not_gamma :
    angle3 (colv (cellbasis 90 90 60 1 1 1) 1) (colv (cellbasis 90 90 60 1 1 1) 2) ≠
      deg2rad 60 ∧
    angle3 (colv (cellbasis 90 90 60 1 1 1) 1) (colv (cellbasis 90 90 60 1 1 1) 2) =
      deg2rad 90 := by
  have hb12 : b12val 90 90 60 = 0 := by
    rw [b12val, cos_deg2rad_ninety]
    simp
  have hS : sqrtArg 90 90 60 = 1 := by
    rw [sqrtArg, cos_deg2rad_ninety, hb12]
    norm_num
  have hd : dot3 (colv (cellbasis 90 90 60 1 1 1) 1)
      (colv (cellbasis 90 90 60 1 1 1) 2) = 0 := by
    show (Real.cos (deg2rad 60) * 1) * (Real.cos (deg2rad 90) * 1)
        + (Real.sin (deg2rad 60) * 1) * (b12val 90 90 60 * 1)
        + (0 * 1) * (Real.sqrt (sqrtArg 90 90 60) * 1) = 0
    rw [cos_deg2rad_ninety, hb12]
    ring
  have hn1 : norm3 (colv (cellbasis 90 90 60 1 1 1) 1) = 1 := by
    rw [norm3]
    have hd11 : dot3 (colv (cellbasis 90 90 60 1 1 1) 1)
        (colv (cellbasis 90 90 60 1 1 1) 1) = 1 := by
      have hr : (Real.cos (deg2rad 60) * 1) * (Real.cos (deg2rad 60) * 1)
          + (Real.sin (deg2rad 60) * 1) * (Real.sin (deg2rad 60) * 1)
          + (0 * 1) * (0 * 1)
          = Real.sin (deg2rad 60) ^ 2 + Real.cos (deg2rad 60) ^ 2 := by ring
      show (Real.cos (deg2rad 60) * 1) * (Real.cos (deg2rad 60) * 1)
          + (Real.sin (deg2rad 60) * 1) * (Real.sin (deg2rad 60) * 1)
          + (0 * 1) * (0 * 1) = 1
      rw [hr, Real.sin_sq_add_cos_sq]
    rw [hd11, Real.sqrt_one]
  have hn2 : norm3 (colv (cellbasis 90 90 60 1 1 1) 2) = 1 := by
    rw [norm3]
    have hd22 : dot3 (colv (cellbasis 90 90 60 1 1 1) 2)
        (colv (cellbasis 90 90 60 1 1 1) 2) = 1 := by
      show (Real.cos (deg2rad 90) * 1) * (Real.cos (deg2rad 90) * 1)
          + (b12val 90 90 60 * 1) * (b12val 90 90 60 * 1)
          + (Real.sqrt (sqrtArg 90 90 60) * 1) * (Real.sqrt (sqrtArg 90 90 60) * 1) = 1
      rw [cos_deg2rad_ninety, hb12, hS, Real.sqrt_one]
      ring
    rw [hd22, Real.sqrt_one]
  have hangle : angle3 (colv (cellbasis 90 90 60 1 1 1) 1)
      (colv (cellbasis 90 90 60 1 1 1) 2) = Real.pi / 2 := by
    rw [angle3, hd, hn1, hn2]
    norm_num [Real.arccos_zero]
  constructor
  · rw [hangle]
    have h60 : deg2rad 60 = Real.pi / 3 := by rw [deg2rad]; ring
    rw [h60]
    intro h
    have := Real.pi_pos
    linarith
  · rw [hangle, deg2rad]
    ring

/-- C5 (amended): for cell angles strictly between 0 and 180 degrees with
positive square-root argument and positive edge lengths, the three 3-D
column vectors of the matrix returned by `cellbasis` have norms `a`, `b`,
`c`; the pairwise column angles are the cell angles in the standard
crystallographic assignment — angle(col1,col2) = alpha,
angle(col0,col2) = beta, angle(col0,col1) = gamma — with column 0 along
the x-axis; and the fourth row and fourth column are (0,0,0,1). -/
theorem cellbasis_geometry (alpha beta gamma a b c : ℝ)
    (hA0 : 0 < alpha) (hA1 : alpha < 180)
    (hB0 : 0 < beta) (hB1 : beta < 180)
    (hG0 : 0 < gamma) (hG1 : gamma < 180)
    (ha : 0 < a) (hb : 0 < b) (hc : 0 < c)
    (hS : 0 < sqrtArg alpha beta gamma) :
    norm3 (colv (cellbasis alpha beta gamma a b c) 0) = a ∧
    norm3 (colv (cellbasis alpha beta gamma a b c) 1) = b ∧
    norm3 (colv (cellbasis alpha beta gamma a b c) 2) = c ∧
    angle3 (colv (cellbasis alpha beta gamma a b c) 0)
      (colv (cellbasis alpha beta gamma a b c) 1) = deg2rad gamma ∧
    angle3 (colv (cellbasis alpha beta gamma a b c) 0)
      (colv (cellbasis alpha beta gamma a b c) 2) = deg2rad beta ∧
    angle3 (colv (cellbasis alpha beta gamma a b c) 1)
      (colv (cellbasis alpha beta gamma a b c) 2) = deg2rad alpha ∧
    cellbasis alpha beta gamma a b c 3 0 = 0 ∧
    cellbasis alpha beta gamma a b c 3 1 = 0 ∧
    cellbasis alpha beta gamma a b c 3 2 = 0 ∧
    cellbasis alpha beta gamma a b c 3 3 = 1 ∧
    cellbasis alpha beta gamma a b c 0 3 = 0 ∧
    cellbasis alpha beta gamma a b c 1 3 = 0 ∧
    cellbasis alpha beta gamma a b c 2 3 = 0 := by
  obtain ⟨hGr0, hGr1⟩ := deg2rad_mem gamma hG0 hG1
  obtain ⟨hBr0, hBr1⟩ := deg2rad_mem beta hB0 hB1
  obtain ⟨hAr0, hAr1⟩ := deg2rad_mem alpha hA0 hA1
  have hsin : 0 < Real.sin (deg2rad gamma) := Real.sin_pos_of_pos_of_lt_pi hGr0 hGr1
  have d00 : dot3 (colv (cellbasis alpha beta gamma a b c) 0)
      (colv (cellbasis alpha beta gamma a b c) 0) = a ^ 2 := by
    show (1 * a) * (1 * a) + (0 * a) * (0 * a) + (0 * a) * (0 * a) = a ^ 2
    ring
  have d11 : dot3 (colv (cellbasis alpha beta gamma a b c) 1)
      (colv (cellbasis alpha beta gamma a b c) 1) = b ^ 2 := by
    have hr : (Real.cos (deg2rad gamma) * b) * (Real.cos (deg2rad gamma) * b)
        + (Real.sin (deg2rad gamma) * b) * (Real.sin (deg2rad gamma) * b)
        + (0 * b) * (0 * b)
        = b ^ 2 * (Real.sin (deg2rad gamma) ^ 2 + Real.cos (deg2rad gamma) ^ 2) := by
      ring
    show (Real.cos (deg2rad gamma) * b) * (Real.cos (deg2rad gamma) * b)
        + (Real.sin (deg2rad gamma) * b) * (Real.sin (deg2rad gamma) * b)
        + (0 * b) * (0 * b) = b ^ 2
    rw [hr, Real.sin_sq_add_cos_sq, mul_one]
  have d22 : dot3 (colv (cellbasis alpha beta gamma a b c) 2)
      (colv (cellbasis alpha beta gamma a b c) 2) = c ^ 2 := by
    have hsq : Real.sqrt (sqrtArg alpha beta gamma) ^ 2 = sqrtArg alpha beta gamma :=
      Real.sq_sqrt hS.le
    have hr : (Real.cos (deg2rad beta) * c) * (Real.cos (deg2rad beta) * c)
        + (b12val alpha beta gamma * c) * (b12val alpha beta gamma * c)
        + (Real.sqrt (sqrtArg alpha beta gamma) * c) *
            (Real.sqrt (sqrtArg alpha beta gamma) * c)
        = c ^ 2 * (Real.cos (deg2rad beta) ^ 2 + b12val alpha beta gamma ^ 2
            + Real.sqrt (sqrtArg alpha beta gamma) ^ 2) := by
      ring
    show (Real.cos (deg2rad beta) * c) * (Real.cos (deg2rad beta) * c)
        + (b12val alpha beta gamma * c) * (b12val alpha beta gamma * c)
        + (Real.sqrt (sqrtArg alpha beta gamma) * c) *
            (Real.sqrt (sqrtArg alpha beta gamma) * c)
        = c ^ 2
    rw [hr, hsq, sqrtArg]
    ring
  have d01 : dot3 (colv (cellbasis alpha beta gamma a b c) 0)
      (colv (cellbasis alpha beta gamma a b c) 1) = a * b * Real.cos (deg2rad gamma) := by
    show (1 * a) * (Real.cos (deg2rad gamma) * b) + (0 * a) * (Real.sin (deg2rad gamma) * b)
        + (0 * a) * (0 * b) = a * b * Real.cos (deg2rad gamma)
    ring
  have d02 : dot3 (colv (cellbasis alpha beta gamma a b c) 0)
      (colv (cellbasis alpha beta gamma a b c) 2) = a * c * Real.cos (deg2rad beta) := by
    show (1 * a) * (Real.cos (deg2rad beta) * c) + (0 * a) * (b12val alpha beta gamma * c)
        + (0 * a) * (Real.sqrt (sqrtArg alpha beta gamma) * c)
        = a * c * Real.cos (deg2rad beta)
    ring
  have d12 : dot3 (colv (cellbasis alpha beta gamma a b c) 1)
      (colv (cellbasis alpha beta gamma a b c) 2) = b * c * Real.cos (deg2rad alpha) := by
    have hb12 : Real.sin (deg2rad gamma) * b12val alpha beta gamma
        = Real.cos (deg2rad alpha) - Real.cos (deg2rad gamma) * Real.cos (deg2rad beta) := by
      rw [b12val, mul_div_cancel₀ _ hsin.ne']
    have hr : (Real.cos (deg2rad gamma) * b) * (Real.cos (deg2rad beta) * c)
        + (Real.sin (deg2rad gamma) * b) * (b12val alpha beta gamma * c)
        + (0 * b) * (Real.sqrt (sqrtArg alpha beta gamma) * c)
        = b * c * (Real.cos (deg2rad gamma) * Real.cos (deg2rad beta)
            + Real.sin (deg2rad gamma) * b12val alpha beta gamma) := by
      ring
    show (Real.cos (deg2rad gamma) * b) * (Real.cos (deg2rad beta) * c)
        + (Real.sin (deg2rad gamma) * b) * (b12val alpha beta gamma * c)
        + (0 * b) * (Real.sqrt (sqrtArg alpha beta gamma) * c)
        = b * c * Real.cos (deg2rad alpha)
    rw [hr, hb12]
    ring
  have n0 : norm3 (colv (cellbasis alpha beta gamma a b c) 0) = a := by
    rw [norm3, d00, Real.sqrt_sq ha.le]
  have n1 : norm3 (colv (cellbasis alpha beta gamma a b c) 1) = b := by
    rw [norm3, d11, Real.sqrt_sq hb.le]
  have n2 : norm3 (colv (cellbasis alpha beta gamma a b c) 2) = c := by
    rw [norm3, d22, Real.sqrt_sq hc.le]
  refine ⟨n0, n1, n2, ?_, ?_, ?_, ?_, ?_, ?_, ?_, ?_, ?_, ?_⟩
  · rw [angle3, n0, n1, d01]
    have hq : a * b * Real.cos (deg2rad gamma) / (a * b) = Real.cos (deg2rad gamma) := by
      field_simp
    rw [hq, Real.arccos_cos hGr0.le hGr1.le]
  · rw [angle3, n0, n2, d02]
    have hq : a * c * Real.cos (deg2rad beta) / (a * c) = Real.cos (deg2rad beta) := by
      field_simp
    rw [hq, Real.arccos_cos hBr0.le hBr1.le]
  · rw [angle3, n1, n2, d12]
    have hq : b * c * Real.cos (deg2rad alpha) / (b * c) = Real.cos (deg2rad alpha) := by
      field_simp
    rw [hq, Real.arccos_cos hAr0.le hAr1.le]
  · show (0 : ℝ) * a = 0; ring
  · show (0 : ℝ) * b = 0; ring
  · show (0 : ℝ) * c = 0; ring
  · show (1 : ℝ) * 1 = 1; ring
  · show (0 : ℝ) * 1 = 0; ring
  · show (0 : ℝ) * 1 = 0; ring
  · show (0 : ℝ) * 1 = 0; ring

theorem b12val_ninety : b12val 90 90 90 = 0 := by
  rw [b12val, cos_deg2rad_ninety]
  simp

theorem sqrtArg_ninety : sqrtArg 90 90 90 = 1 := by
  rw [sqrtArg, cos_deg2rad_ninety, b12val_ninety]
  norm_num

/-- Witness for `cellbasis_geometry` on the orthorhombic cell
`alpha = beta = gamma = 90`, `a = b = c = 1`. -/
theorem cellbasis_geometry_witness :
    (0 : ℝ) < 90 ∧ (90 : ℝ) < 180 ∧ (0 : ℝ) < 1 ∧ 0 < sqrtArg 90 90 90 ∧
    (norm3 (colv (cellbasis 90 90 90 1 1 1) 0) = 1 ∧
     norm3 (colv (cellbasis 90 90 90 1 1 1) 1) = 1 ∧
     norm3 (colv (cellbasis 90 90 90 1 1 1) 2) = 1 ∧
     angle3 (colv (cellbasis 90 90 90 1 1 1) 0)
       (colv (cellbasis 90 90 90 1 1 1) 1) = deg2rad 90 ∧
     angle3 (colv (cellbasis 90 90 90 1 1 1) 0)
       (colv (cellbasis 90 90 90 1 1 1) 2) = deg2rad 90 ∧
     angle3 (colv (cellbasis 90 90 90 1 1 1) 1)
       (colv (cellbasis 90 90 90 1 1 1) 2) = deg2rad 90 ∧
     cellbasis 90 90 90 1 1 1 3 0 = 0 ∧
     cellbasis 90 90 90 1 1 1 3 1 = 0 ∧
     cellbasis 90 90 90 1 1 1 3 2 = 0 ∧
     cellbasis 90 90 90 1 1 1 3 3 = 1 ∧
     cellbasis 90 90 90 1 1 1 0 3 = 0 ∧
     cellbasis 90 90 90 1 1 1 1 3 = 0 ∧
     cellbasis 90 90 90 1 1 1 2 3 = 0) :=
  ⟨by norm_num, by norm_num, by norm_num, by rw [sqrtArg_ninety]; norm_num,
   cellbasis_geometry 90 90 90 1 1 1 (by norm_num) (by norm_num) (by norm_num)
     (by norm_num) (by norm_num) (by norm_num) (by norm_num) (by norm_num)
     (by norm_num) (by rw [sqrtArg_ninety]; norm_num)⟩

/-! ## C8: cellbasis and its `edges` argument -/

/-- `cellbasis` including its effect on the caller's `edges` list
(xtal.py:27-29).  The statements run in order: first
`basis[2][2] = sqrt(...)` (line 27), where `math.sqrt` raises ValueError
when its argument is negative, so in that case the function aborts
*before* `edges.append(1.0)` (line 28) and the caller's list is left
unchanged (modelled as `(none, edges)`).  Otherwise the list is mutated
in place to `edges + [1.0]` and the numpy product `basis * edges`
(line 29) is formed, which requires the (mutated) list to have length 4
(otherwise numpy raises a broadcast ValueError after the mutation,
modelled as a `none` result next to the extended list).  At
`sin(gamma) == 0` the float division at line 26 produces inf/nan rather
than the total real division used here; the theorems below therefore
assume `sin (deg2rad gamma) ≠ 0`. -/
noncomputable def cellbasisFull (alpha beta gamma : ℝ) (edges : List ℝ) :
    Option (Fin 4 → Fin 4 → ℝ) × List ℝ :=
  if sqrtArg alpha beta gamma < 0 then (none, edges)
  else
    let edges1 := edges ++ [1]
    (if edges1.length = 4 then
        some (fun i j => basisMat alpha beta gamma i j * edges1.getD j 0)
      else none,
     edges1)

/-- C8 (counterexample): `cellbasis` does not mutate its `edges` argument
on every call.  For the cell angles `alpha = 30, beta = 30, gamma = 90`
(all strictly between 0 and 180) the square-root argument at xtal.py:27
is `1 - 3/4 - 3/4 = -1/2 < 0`, so `math.sqrt` raises ValueError before
`edges.append(1.0)` runs: after the call the list `[1, 1, 1]` is
unchanged and no matrix is produced. -/
theorem cellbasis_sqrt_fails_no_append :
    sqrtArg 30 30 90 < 0 ∧
    (cellbasisFull 30 30 90 [(1 : ℝ), 1, 1]).2 = [(1 : ℝ), 1, 1] ∧
    (cellbasisFull 30 30 90 [(1 : ℝ), 1, 1]).2 ≠ [(1 : ℝ), 1, 1] ++ [1] ∧
    (cellbasisFull 30 30 90 [(1 : ℝ), 1, 1]).1 = none := by
  have h90 : deg2rad 90 = Real.pi / 2 := by rw [deg2rad]; ring
  have h30 : deg2rad 30 = Real.pi / 6 := by rw [deg2rad]; ring
  have hb12 : b12val 30 30 90 = Real.sqrt 3 / 2 := by
    rw [b12val, h30, h90, Real.cos_pi_div_two, Real.sin_pi_div_two, Real.cos_pi_div_six]
    ring
  have hS : sqrtArg 30 30 90 = -(1 / 2) := by
    rw [sqrtArg, h30, Real.cos_pi_div_six, hb12, div_pow,
      Real.sq_sqrt (by norm_num : (0 : ℝ) ≤ 3)]
    norm_num
  have hlt : sqrtArg 30 30 90 < 0 := by
    rw [hS]
    norm_num
  have huntouched : (cellbasisFull 30 30 90 [(1 : ℝ), 1, 1]).2 = [(1 : ℝ), 1, 1] := by
    simp only [cellbasisFull]
    rw [if_pos hlt]
  refine ⟨hlt, huntouched, by rw [huntouched]; simp, ?_⟩
  simp only [cellbasisFull]
  rw [if_pos hlt]

/-- C8 (amended): whenever the square root at xtal.py:27 succeeds (its
argument is nonnegative; `sin(gamma) ≠ 0` keeps the line-26 division
finite), `cellbasis` mutates its caller's `edges` argument: after the
call the list has `1.0` appended; calling `cellbasis` a second time with
the same (now mutated) 4-element list appends again, so the list is
longer still, and the second result differs from the first (a broadcast
error where the first was a matrix).  When the argument is negative the
ValueError fires before the append and the list is unchanged. -/
theorem cellbasis_mutates_edges (alpha beta gamma : ℝ) (edges : List ℝ)
    (_hsin : Real.sin (deg2rad gamma) ≠ 0)
    (hsq : 0 ≤ sqrtArg alpha beta gamma)
    (h : edges.length = 3) :
    (cellbasisFull alpha beta gamma edges).2 = edges ++ [1] ∧
    (cellbasisFull alpha beta gamma edges).2.length = edges.length + 1 ∧
    (cellbasisFull alpha beta gamma
        ((cellbasisFull alpha beta gamma edges).2)).2 = edges ++ [1] ++ [1] ∧
    (cellbasisFull alpha beta gamma
        ((cellbasisFull alpha beta gamma edges).2)).2.length = edges.length + 2 ∧
    (cellbasisFull alpha beta gamma edges).1.isSome = true ∧
    (cellbasisFull alpha beta gamma
        ((cellbasisFull alpha beta gamma edges).2)).1 = none ∧
    (cellbasisFull alpha beta gamma
        ((cellbasisFull alpha beta gamma edges).2)).1 ≠
      (cellbasisFull alpha beta gamma edges).1 := by
  have hns : ¬(sqrtArg alpha beta gamma < 0) := not_lt.mpr hsq
  have h1 : (edges ++ [1]).length = 4 := by simp [h]
  have hsnd : (cellbasisFull alpha beta gamma edges).2 = edges ++ [1] := by
    simp only [cellbasisFull]
    rw [if_neg hns]
  have hfirst : (cellbasisFull alpha beta gamma edges).1.isSome = true := by
    simp only [cellbasisFull]
    rw [if_neg hns]
    simp only [if_pos h1]
    rfl
  have hsnd2 : (cellbasisFull alpha beta gamma
      ((cellbasisFull alpha beta gamma edges).2)).2 = edges ++ [1] ++ [1] := by
    rw [hsnd]
    simp only [cellbasisFull]
    rw [if_neg hns]
  have hsecond : (cellbasisFull alpha beta gamma
      ((cellbasisFull alpha beta gamma edges).2)).1 = none := by
    rw [hsnd]
    simp only [cellbasisFull]
    rw [if_neg hns]
    simp only [if_neg (show ¬((edges ++ [1] ++ [1]).length = 4) by simp [h])]
  refine ⟨hsnd, by rw [hsnd]; simp, hsnd2, by rw [hsnd2]; simp [h], hfirst, hsecond, ?_⟩
  intro heq
  rw [hsecond] at heq
  rw [← heq] at hfirst
  simp at hfirst

theorem sin_deg2rad_ninety : Real.sin (deg2rad 90) = 1 := by
  have h : deg2rad 90 = Real.pi / 2 := by rw [deg2rad]; ring
  rw [h, Real.sin_pi_div_two]

/-- Witness for `cellbasis_mutates_edges` on the orthorhombic cell with
edge list `[2, 3, 4]`. -/
theorem cellbasis_mutates_edges_witness :
    Real.sin (deg2rad 90) ≠ 0 ∧
    0 ≤ sqrtArg 90 90 90 ∧
    ([(2 : ℝ), 3, 4]).length = 3 ∧
    ((cellbasisFull 90 90 90 [2, 3, 4]).2 = [(2 : ℝ), 3, 4] ++ [1] ∧
     (cellbasisFull 90 90 90 [2, 3, 4]).2.length = [(2 : ℝ), 3, 4].length + 1 ∧
     (cellbasisFull 90 90 90
        ((cellbasisFull 90 90 90 [2, 3, 4]).2)).2 = [(2 : ℝ), 3, 4] ++ [1] ++ [1] ∧
     (cellbasisFull 90 90 90
        ((cellbasisFull 90 90 90 [2, 3, 4]).2)).2.length = [(2 : ℝ), 3, 4].length + 2 ∧
     (cellbasisFull 90 90 90 [2, 3, 4]).1.isSome = true ∧
     (cellbasisFull 90 90 90
        ((cellbasisFull 90 90 90 [2, 3, 4]).2)).1 = none ∧
     (cellbasisFull 90 90 90
        ((cellbasisFull 90 90 90 [2, 3, 4]).2)).1 ≠
       (cellbasisFull 90 90 90 [2, 3, 4]).1) :=
  ⟨by rw [sin_deg2rad_ninety]; norm_num,
   by rw [sqrtArg_ninety]; norm_num,
   rfl,
   cellbasis_mutates_edges 90 90 90 [2, 3, 4]
     (by rw [sin_deg2rad_ninety]; norm_num)
     (by rw [sqrtArg_ninety]; norm_num) rfl⟩

end Psico
